import Mathlib

/-!
Verification of the AtuReactor single-threaded reactor library.

This file gives a shallow embedding, in Lean 4, of the parts of the
library relevant to the claims under examination:

* `PcapReceiver` (the FileReplayer): capture-file format detection
  (`openCapture`), the legacy per-packet step (`step`), the
  next-generation block iteration (`stepPcapNg`), the layer-2/3/4 parser
  (`parseAndDispatch`), and port subscription bookkeeping.
* `EventLoop` (the Reactor): the ordered timer set (`insertTimer`,
  `cancelTimer`, `resetTimerFd`, `handleTimerRead`) and the source table
  (`addSource`, `removeSource`).
* `UDPReceiver` (the LiveReceiver): the batched read path (`handleRead`).

Memory is modelled as a `List Nat` of byte values; a read through a raw
pointer becomes either a total load (`loadU32le`, used only where the
source has already bounds-checked the access) or an optional load
(`List.getElem?`, used where the source performs no check, so that an
out-of-bounds access is observable as `none`).  Machine integers are
`Nat`/`Int` with explicit wrapping where the source can overflow.
Operations that are undefined behaviour in C++ (reads outside the
mapping, integer division by zero) are modelled as explicit outcome
constructors rather than given a conventional value.
-/

namespace AtuReactor

/-- A byte of the memory mapping; values are expected to lie below 256. -/
abbrev Byte := Nat

/-- Total byte load with default 0; used only at offsets the source code
has already bounds-checked. -/
def byteAt (f : List Byte) (i : Nat) : Nat := f.getD i 0

/-- Native (little-endian host) 32-bit load, as performed by dereferencing
a `uint32_t*` into the mapping on x86-64/aarch64 Linux. -/
def loadU32le (f : List Byte) (i : Nat) : Nat :=
  byteAt f i + 256 * byteAt f (i+1) + 65536 * byteAt f (i+2) + 16777216 * byteAt f (i+3)

/-- Native (little-endian host) 16-bit load. -/
def loadU16le (f : List Byte) (i : Nat) : Nat :=
  byteAt f i + 256 * byteAt f (i+1)

/-- `__builtin_bswap32`: reverse the four bytes of a 32-bit value. -/
def bswap32 (v : Nat) : Nat :=
  (v % 256) * 16777216 + (v / 256 % 256) * 65536 + (v / 65536 % 256) * 256 + v / 16777216 % 256

/-- `__builtin_bswap16`: reverse the two bytes of a 16-bit value. -/
def bswap16 (v : Nat) : Nat :=
  (v % 256) * 256 + v / 256 % 256

/-- Checked big-endian 16-bit read (`ntohs` of an unaligned `uint16_t`
load); `none` when either byte lies outside the mapping. -/
def readU16be (f : List Byte) (i : Nat) : Option Nat := do
  let a ← f[i]?
  let b ← f[i+1]?
  pure (256 * a + b)

/-- Checked native 32-bit read; `none` when any byte lies outside the mapping. -/
def readU32le (f : List Byte) (i : Nat) : Option Nat := do
  let a ← f[i]?
  let b ← f[i+1]?
  let c ← f[i+2]?
  let d ← f[i+3]?
  pure (a + 256 * b + 65536 * c + 16777216 * d)

/-- Little-endian serialization of a 32-bit value into four bytes. -/
def encodeU32le (v : Nat) : List Byte :=
  [v % 256, v / 256 % 256, v / 65536 % 256, v / 16777216 % 256]

/-- Big-endian serialization of a 32-bit value into four bytes. -/
def encodeU32be (v : Nat) : List Byte :=
  [v / 16777216 % 256, v / 65536 % 256, v / 256 % 256, v % 256]

/-- `struct timespec` with the non-negative values this library produces. -/
structure Timespec where
  sec : Nat
  nsec : Nat
  deriving DecidableEq, Repr

namespace PcapReceiver

/-- `PcapMagic` constant `MAGIC_MICRO_BE`. -/
def MAGIC_MICRO_BE : Nat := 0xa1b2c3d4
/-- `PcapMagic` constant `MAGIC_MICRO_LE`. -/
def MAGIC_MICRO_LE : Nat := 0xd4c3b2a1
/-- `PcapMagic` constant `MAGIC_NANO_BE`. -/
def MAGIC_NANO_BE : Nat := 0xa1b23c4d
/-- `PcapMagic` constant `MAGIC_NANO_LE`. -/
def MAGIC_NANO_LE : Nat := 0x4d3c2b1a
/-- `PcapMagic` constant `MAGIC_PCAPNG_SHB`. -/
def MAGIC_PCAPNG_SHB : Nat := 0x0A0D0D0A
/-- `PcapMagic` constant `PCAPNG_BOM`. -/
def PCAPNG_BOM : Nat := 0x1A2B3C4D
/-- `PcapMagic` constant `PCAPNG_BOM_SWAP`. -/
def PCAPNG_BOM_SWAP : Nat := 0x4D3C2B1A

/-- The format-detection outcome of `PcapReceiver::open`: the fields of the
receiver that `open` assigns, plus the read cursor (`m_currentPtr`,
expressed as a byte offset from `m_mappedData`). -/
structure FormatState where
  isPcapNg : Bool
  swapped : Bool
  isNanosecond : Bool
  linkType : Nat
  cursor : Nat
  deriving DecidableEq, Repr

/-- `PcapReceiver::open` after the file has been mapped successfully: the
global-header parse and format detection (PcapReceiver.cc lines 92-149) on
a freshly constructed receiver (member initializers `m_swapped = false`,
`m_isNanosecond = false`, `m_linkType = 0`).  Errors carry the errno the
source returns (`EINVAL` = 22).  Note the legacy branch has no final
`else`: a magic matching none of the four legacy values leaves
`m_swapped` and `m_isNanosecond` at their initial `false` values and
still returns success. -/
def openCapture (file : List Byte) : Except Nat FormatState :=
  if file.length < 24 then .error 22
  else
    let magic := loadU32le file 0
    if magic = MAGIC_PCAPNG_SHB then
      let byteOrderMagic := loadU32le file 8
      if byteOrderMagic = PCAPNG_BOM then
        .ok ⟨true, false, true, 0, 0⟩
      else if byteOrderMagic = PCAPNG_BOM_SWAP then
        .ok ⟨true, true, true, 0, 0⟩
      else
        .error 22
    else
      let flags : Bool × Bool :=
        if magic = MAGIC_MICRO_LE then (true, false)
        else if magic = MAGIC_NANO_LE then (true, true)
        else if magic = MAGIC_NANO_BE then (false, true)
        else if magic = MAGIC_MICRO_BE then (false, false)
        else (false, false)
      let network := loadU32le file 20
      let linkType := if flags.1 then bswap32 network else network
      .ok ⟨false, flags.1, flags.2, linkType, 24⟩

/-- Entry of the 65,536-slot `m_portTable`; a default-constructed entry has
`context = nullptr` and `handler = nullptr`.  Contexts and handlers are
opaque pointers, modelled as numeric identifiers with `handler = none`
standing for a null handler. -/
structure Subscription where
  context : Nat
  handler : Option Nat
  deriving DecidableEq, Repr

/-- The arguments of a `sub.handler(sub.context, ptr, dataLen, OK, ts)`
invocation performed by `parseAndDispatch`; `dataOff` is the payload
pointer expressed as an offset into the mapping. -/
structure DispatchCall where
  context : Nat
  handler : Nat
  dataOff : Nat
  dataLen : Nat
  status : Nat
  ts : Timespec
  deriving DecidableEq, Repr

/-- Result of one `parseAndDispatch` run.  `drop` is a silent per-packet
drop (including the no-subscriber case); `oobRead` marks a byte access
outside the mapping, which is undefined behaviour in the C++ source and
is therefore kept as an explicit outcome rather than given a value. -/
inductive ParseOutcome where
  | drop
  | dispatched (c : DispatchCall)
  | oobRead
  deriving DecidableEq, Repr

/-- Layers 3 and 4 of `PcapReceiver::parseAndDispatch` (PcapReceiver.cc
lines 485-524), after the link layer has produced an ether type `proto`,
a cursor `p` into the mapping, and the count `remaining` of captured
bytes left.  Field reads touch exactly the bytes the C++ member accesses
touch: the first IPv4 byte (version/IHL), the IPv4 protocol byte, and
the big-endian UDP destination-port and length words.  The C++ locals
are inlined: `ipLen` is `b0 % 16 * 4` (IHL·4), the advanced cursor is
`p + ipLen`, the advanced remaining is `remaining - ipLen`, and
`dataLen` is `udpLen - 8`. -/
def parseIpUdp (ts : Timespec) (file : List Byte)
    (table : Nat → Subscription) (proto p remaining : Nat) : ParseOutcome :=
  if proto ≠ 0x0800 then .drop
  else if remaining < 20 then .drop
  else match file[p]? with
    | none => .oobRead
    | some b0 =>
      if b0 / 16 ≠ 4 then .drop
      else if remaining < b0 % 16 * 4 then .drop
      else match file[p + 9]? with
        | none => .oobRead
        | some ipProto =>
          if ipProto ≠ 17 then .drop
          else if remaining - b0 % 16 * 4 < 8 then .drop
          else match readU16be file (p + b0 % 16 * 4 + 2),
                     readU16be file (p + b0 % 16 * 4 + 4) with
            | some dstPort, some udpLen =>
              if udpLen < 8 then .drop
              else if remaining - b0 % 16 * 4 - 8 < udpLen - 8 then .drop
              else match (table dstPort).handler with
                | some h =>
                  .dispatched ⟨(table dstPort).context, h, p + b0 % 16 * 4 + 8,
                    udpLen - 8, 0, ts⟩
                | none => .drop
            | _, _ => .oobRead

/-- `PcapReceiver::parseAndDispatch` (PcapReceiver.cc lines 442-525): the
in-place layer-2/3/4 decode of the frame whose `caplen` captured bytes
start at offset `off` of the mapping.  `DLT_LINUX_SLL` = 113,
`DLT_EN10MB` = 1, `ETHERTYPE_VLAN` = 0x8100, `ETHERTYPE_IP` = 0x0800. -/
def parseAndDispatch (ts : Timespec) (caplen len : Nat) (file : List Byte)
    (off : Nat) (linkType : Nat) (table : Nat → Subscription) : ParseOutcome :=
  if caplen ≠ len then .drop
  else if linkType = 113 then
    if caplen < 16 then .drop
    else match readU16be file (off + 14) with
      | none => .oobRead
      | some proto => parseIpUdp ts file table proto (off + 16) (caplen - 16)
  else if linkType = 1 then
    if caplen < 14 then .drop
    else match readU16be file (off + 12) with
      | none => .oobRead
      | some proto =>
        if proto = 0x8100 then
          if caplen - 14 < 4 then .drop
          else match readU16be file (off + 14 + 2) with
            | none => .oobRead
            | some proto2 => parseIpUdp ts file table proto2 (off + 18) (caplen - 18)
        else parseIpUdp ts file table proto (off + 14) (caplen - 14)
  else .drop

/-- Spec-side big-endian 16-bit read on the extracted frame (spec §4.3:
"read 16-bit big-endian ..."). -/
def specU16be (l : List Byte) (i : Nat) : Nat :=
  256 * l.getD i 0 + l.getD (i + 1) 0

/-- Spec-side link-layer decode, following the spec's words (§4.3 Layer
parser, step 1): for Ethernet (`link_type` 1) require 14 bytes and read
the ether type at offset 12, handling one 802.1Q tag (4 more bytes,
ether type at offset 2 of the tag); for cooked capture v1 (`link_type`
113) require 16 bytes and read the protocol at offset 14; reject other
link types.  Returns the protocol and the link-header length consumed. -/
def specLinkHeader (linkType caplen : Nat) (frame : List Byte) : Option (Nat × Nat) :=
  if linkType = 1 then
    if 14 ≤ caplen then
      if specU16be frame 12 = 0x8100 then
        if 18 ≤ caplen then some (specU16be frame 16, 18) else none
      else some (specU16be frame 12, 14)
    else none
  else if linkType = 113 then
    if 16 ≤ caplen then some (specU16be frame 14, 16) else none
  else none

/-- Spec-side IPv4/UDP requirements (§4.3 Layer parser, steps 2-5),
stated as one declarative conjunction over the extracted frame: the
protocol is IPv4 (0x0800), at least 20 bytes remain, the version field
is 4, the IHL·4 header fits the remaining bytes, the IPv4 protocol is
UDP (17), at least 8 bytes remain for the UDP header, the UDP length
covers its header, and the `length - 8` payload fits the remaining
bytes.  Returns the big-endian destination port, the payload offset
within the frame, and the payload length. -/
def specIpUdp (frame : List Byte) (lhl rem proto : Nat) : Option (Nat × Nat × Nat) :=
  if proto = 0x0800
      ∧ 20 ≤ rem
      ∧ frame.getD lhl 0 / 16 = 4
      ∧ frame.getD lhl 0 % 16 * 4 ≤ rem
      ∧ frame.getD (lhl + 9) 0 = 17
      ∧ 8 ≤ rem - frame.getD lhl 0 % 16 * 4
      ∧ 8 ≤ specU16be frame (lhl + frame.getD lhl 0 % 16 * 4 + 4)
      ∧ specU16be frame (lhl + frame.getD lhl 0 % 16 * 4 + 4) - 8 ≤
          rem - frame.getD lhl 0 % 16 * 4 - 8 then
    some (specU16be frame (lhl + frame.getD lhl 0 % 16 * 4 + 2),
          lhl + frame.getD lhl 0 % 16 * 4 + 8,
          specU16be frame (lhl + frame.getD lhl 0 % 16 * 4 + 4) - 8)
  else none

/-- Spec-side layer parser (§4.3 Layer parser): reject truncated
captures (`caplen ≠ len`), decode the link header, then apply the
IPv4/UDP requirements.  Yields the destination port, payload offset and
payload length of a deliverable frame; `none` is a silent drop. -/
def specParse (frame : List Byte) (caplen len linkType : Nat) : Option (Nat × Nat × Nat) :=
  if caplen = len then
    match specLinkHeader linkType caplen frame with
    | none => none
    | some (proto, lhl) => specIpUdp frame lhl (caplen - lhl) proto
  else none

/-- `ReplayMode` from PcapReceiver.h. -/
inductive ReplayMode where
  | TIMED
  | FLOOD
  | STEP
  deriving DecidableEq, Repr

/-- Next-gen interface metadata (`PcapReceiver::InterfaceInfo`). -/
structure InterfaceInfo where
  linkType : Nat
  tsResolutionDivisor : Nat
  deriving DecidableEq, Repr

/-- The mutable replay state of a `PcapReceiver`: the read cursor
(offset form of `m_currentPtr`), the format flags set by `open`, the
timing anchor, and the next-gen interface table (`m_interfaces`,
an `std::unordered_map` keyed by interface index, modelled as an
association list, together with `m_interfaceCount`).  Monotonic instants
(`std::chrono::steady_clock::time_point`) are nanosecond counts. -/
structure ReplayState where
  cursor : Nat
  finished : Bool
  firstPacket : Bool
  pcapStartTs : Timespec
  wallStartNs : Nat
  isPcapNg : Bool
  swapped : Bool
  isNanosecond : Bool
  linkType : Nat
  interfaces : List (Nat × InterfaceInfo)
  interfaceCount : Nat
  deriving DecidableEq, Repr

/-- The replay state right after a successful `open` returning `fs`. -/
def ReplayState.ofFormat (fs : FormatState) : ReplayState :=
  ⟨fs.cursor, false, true, ⟨0, 0⟩, 0, fs.isPcapNg, fs.swapped, fs.isNanosecond,
   fs.linkType, [], 0⟩

/-- Truncation toward zero of a rational, as a C++ `(long)` cast of a
`double` performs (the source computes the speed-scaled delta in IEEE
doubles; the claims never exercise a `speedMultiplier ≠ 1`, so exact
rational arithmetic stands in for the double arithmetic here). -/
def ratTrunc (q : ℚ) : Int :=
  if q < 0 then ⌈q⌉ else ⌊q⌋

/-- `PcapReceiver::calculateTargetTimeHighRes` (PcapReceiver.cc lines
413-440).  Returns the target instant together with the updated state
(the first delivered packet anchors `m_pcapStartTs`/`m_wallStartTs` and
clears `m_firstPacket`). -/
def calculateTargetTimeHighRes (speedMultiplier : ℚ) (now : Nat)
    (st : ReplayState) (ts : Timespec) : Int × ReplayState :=
  if st.firstPacket then
    (now, { st with pcapStartTs := ts, wallStartNs := now, firstPacket := false })
  else
    let diffSec : Int := (ts.sec : Int) - st.pcapStartTs.sec
    let diffNs : Int := (ts.nsec : Int) - st.pcapStartTs.nsec
    let (diffSec, diffNs) :=
      if diffNs < 0 then (diffSec - 1, diffNs + 1000000000) else (diffSec, diffNs)
    let (diffSec, diffNs) :=
      if speedMultiplier ≠ 1 then
        let totalNs : ℚ := (diffSec : ℚ) * 1000000000 + (diffNs : ℚ)
        let scaled := totalNs / speedMultiplier
        (ratTrunc (scaled / 1000000000), ratTrunc scaled % 1000000000)
      else (diffSec, diffNs)
    ((st.wallStartNs : Int) + diffSec * 1000000000 + diffNs, st)

/-- Result of one `step()` call.  `eof` and `waitFuture` are the two
`return false` paths (end of capture reached, respectively TIMED-mode
future packet for which a wake-up after `delayNs` has been scheduled);
`stepped` is the `return true` path carrying what `parseAndDispatch`
did; `oobRead` and `divByZero` mark undefined behaviour reached while
decoding next-gen blocks. -/
inductive StepOutcome where
  | eof
  | waitFuture (delayNs : Int)
  | stepped (p : ParseOutcome)
  | oobRead
  | divByZero
  deriving DecidableEq, Repr

/-- Field-wise decode of a legacy 16-byte `pcap_sf_pkthdr` at offset
`off`: each `uint32_t` is loaded natively and byte-swapped when the
dialect is swapped (PcapReceiver.cc lines 226-242). -/
def decodePkthdr (swapped : Bool) (file : List Byte) (off : Nat) :
    Nat × Nat × Nat × Nat :=
  let fld := fun o => if swapped then bswap32 (loadU32le file o) else loadU32le file o
  (fld off, fld (off + 4), fld (off + 8), fld (off + 12))

/-- The `struct timespec` a legacy step builds from the decoded `ts_sec`
and sub-second fields (PcapReceiver.cc lines 245-250): the fraction is
taken as nanoseconds and multiplied by 1000 when the dialect is
microseconds. -/
def legacyTimestamp (isNanosecond : Bool) (sec fraction : Nat) : Timespec :=
  ⟨sec, if isNanosecond then fraction else fraction * 1000⟩

/-- Walk of the IDB option list looking for `if_tsresol` (code 9)
(PcapReceiver.cc lines 321-333).  All reads are within the mapping
because the caller established `blockEnd + 4 ≤ file.length`.  The C++
computes the divisor in `uint64_t` (and `1ULL << s` with `s ≥ 64` is
undefined; we wrap modulo 2^64 as x86-64 masks the shift count). -/
def parseIdbOptions (swapped : Bool) (file : List Byte)
    (blockEnd : Nat) (optPtr : Nat) (dv : Nat) : Nat :=
  if h : optPtr + 4 ≤ blockEnd then
    let code := if swapped then bswap16 (loadU16le file optPtr) else loadU16le file optPtr
    let vlen := if swapped then bswap16 (loadU16le file (optPtr + 2)) else loadU16le file (optPtr + 2)
    if code = 0 then dv
    else
      let dv' :=
        if code = 9 ∧ vlen = 1 then
          let res := byteAt file (optPtr + 4)
          if res &&& 0x80 ≠ 0 then 1 <<< (res &&& 0x7F) % 2 ^ 64
          else 10 ^ res % 2 ^ 64
        else dv
      parseIdbOptions swapped file blockEnd (optPtr + 4 + (vlen + 3) / 4 * 4) dv'
  else dv
  termination_by blockEnd - optPtr
  decreasing_by omega

/-- `PcapReceiver::stepPcapNg` (PcapReceiver.cc lines 281-380): iterate
blocks from the cursor, recording Interface Description Blocks (type 1)
and skipping all other non-packet blocks, until an Enhanced Packet Block
(type 6) is found or the mapping is exhausted.  The EPB path looks up
`m_interfaces[ifId]`; for an index never described this `operator[]`
default-constructs an entry with `tsResolutionDivisor = 0` and the
subsequent `tsRaw / divisor` is a division by zero, kept as the explicit
outcome `divByZero`. -/
def stepPcapNg (mode : ReplayMode) (speedMultiplier : ℚ) (now : Nat)
    (file : List Byte) (table : Nat → Subscription) (st : ReplayState) :
    StepOutcome × ReplayState :=
  if h8 : file.length < st.cursor + 8 then
    (.eof, { st with finished := true })
  else
    let btype0 := loadU32le file st.cursor
    let blen0 := loadU32le file (st.cursor + 4)
    let btype := if st.swapped then bswap32 btype0 else btype0
    let blen := if st.swapped then bswap32 blen0 else blen0
    if hlen : blen < 8 ∨ file.length < st.cursor + blen then
      (.eof, { st with finished := true })
    else if btype = 6 then
      match readU32le file (st.cursor + 8), readU32le file (st.cursor + 12),
            readU32le file (st.cursor + 16) with
      | some ifId0, some tsHigh0, some tsLow0 =>
        let ifId := if st.swapped then bswap32 ifId0 else ifId0
        let (info, st) :=
          match st.interfaces.lookup ifId with
          | some info => (info, st)
          | none =>
            (⟨0, 0⟩, { st with interfaces := (ifId, (⟨0, 0⟩ : InterfaceInfo)) :: st.interfaces })
        let tsHigh := if st.swapped then bswap32 tsHigh0 else tsHigh0
        let tsLow := if st.swapped then bswap32 tsLow0 else tsLow0
        let tsRaw := tsHigh * 4294967296 + tsLow
        if info.tsResolutionDivisor = 0 then (.divByZero, st)
        else
          let ts : Timespec :=
            ⟨tsRaw / info.tsResolutionDivisor,
             tsRaw % info.tsResolutionDivisor * 1000000000 / info.tsResolutionDivisor⟩
          let (target, st) :=
            if mode = .TIMED then calculateTargetTimeHighRes speedMultiplier now st ts
            else (now, st)
          if mode = .TIMED ∧ target > now then
            (.waitFuture (target - now), st)
          else
            match readU32le file (st.cursor + 20), readU32le file (st.cursor + 24) with
            | some capLen0, some origLen0 =>
              let capLen := if st.swapped then bswap32 capLen0 else capLen0
              let origLen := if st.swapped then bswap32 origLen0 else origLen0
              let outcome :=
                parseAndDispatch ts capLen origLen file (st.cursor + 28) info.linkType table
              (.stepped outcome, { st with cursor := st.cursor + blen })
            | _, _ => (.oobRead, st)
      | _, _, _ => (.oobRead, st)
    else
      let st' :=
        if btype = 1 then
          match readU16be file (st.cursor + 8) with
          | none => none
          | some _ =>
            let lt0 := loadU16le file (st.cursor + 8)
            let lt := if st.swapped then bswap16 lt0 else lt0
            let dv := parseIdbOptions st.swapped file (st.cursor + blen - 4) (st.cursor + 16) 1000000
            some { st with
                    interfaces := (st.interfaceCount, (⟨lt, dv⟩ : InterfaceInfo)) :: st.interfaces,
                    interfaceCount := st.interfaceCount + 1 }
        else some st
      match st' with
      | none => (.oobRead, st)
      | some st' => stepPcapNg mode speedMultiplier now file table { st' with cursor := st.cursor + blen }
  termination_by file.length - st.cursor
  decreasing_by
    simp only [not_or, not_lt] at h8 hlen
    unfold blen blen0 at hlen
    omega

/-- The timestamp a legacy step builds from the packet header at the
cursor: `legacyTimestamp` applied to the decoded `ts_sec` and
sub-second fields. -/
def hdrTimestamp (st : ReplayState) (file : List Byte) : Timespec :=
  legacyTimestamp st.isNanosecond (decodePkthdr st.swapped file st.cursor).1
    (decodePkthdr st.swapped file st.cursor).2.1

/-- `PcapReceiver::step` (PcapReceiver.cc lines 209-279): delegate to the
next-gen iterator when the capture is pcapng, otherwise perform one
legacy step: bounds-check the 16-byte packet header against the mapping
end (the `caplen` payload bytes are NOT bounds-checked), decode the
header (`caplen` is `(decodePkthdr ..).2.2.1`, `len` is
`(decodePkthdr ..).2.2.2`), build the timestamp, in TIMED mode compute
the pacing target (which may anchor the first packet) and when it lies
in the future return false without advancing, otherwise hand the
payload at `cursor + 16` to `parseAndDispatch` and advance the cursor
by `16 + caplen`.  The C++ locals are written as projections of
`decodePkthdr` / `calculateTargetTimeHighRes` instead of `let`s. -/
def step (mode : ReplayMode) (speedMultiplier : ℚ) (now : Nat)
    (file : List Byte) (table : Nat → Subscription) (st : ReplayState) :
    StepOutcome × ReplayState :=
  if st.isPcapNg then stepPcapNg mode speedMultiplier now file table st
  else if file.length < st.cursor + 16 then
    (.eof, { st with finished := true })
  else if mode = .TIMED then
    if (now : Int) <
        (calculateTargetTimeHighRes speedMultiplier now st (hdrTimestamp st file)).1 then
      (.waitFuture
          ((calculateTargetTimeHighRes speedMultiplier now st (hdrTimestamp st file)).1 - now),
       (calculateTargetTimeHighRes speedMultiplier now st (hdrTimestamp st file)).2)
    else
      (.stepped (parseAndDispatch (hdrTimestamp st file)
          (decodePkthdr st.swapped file st.cursor).2.2.1
          (decodePkthdr st.swapped file st.cursor).2.2.2
          file (st.cursor + 16) st.linkType table),
       { (calculateTargetTimeHighRes speedMultiplier now st (hdrTimestamp st file)).2 with
          cursor := st.cursor + 16 + (decodePkthdr st.swapped file st.cursor).2.2.1 })
  else
    (.stepped (parseAndDispatch (hdrTimestamp st file)
        (decodePkthdr st.swapped file st.cursor).2.2.1
        (decodePkthdr st.swapped file st.cursor).2.2.2
        file (st.cursor + 16) st.linkType table),
     { st with cursor := st.cursor + 16 + (decodePkthdr st.swapped file st.cursor).2.2.1 })

end PcapReceiver

namespace EventLoop

/-- A user timer callback is embedded as the sequence of event-loop
operations it performs; for the claims under study only re-entrant
`cancelTimer` calls matter.  An empty list also covers a null
`std::function` (which `handleTimerRead` simply does not invoke). -/
inductive CbAction where
  | cancel (id : Nat)
  deriving DecidableEq, Repr

/-- `EventLoop::Timer` (EventLoop.cc revision): expiration is an absolute
monotonic instant in nanoseconds, interval the repeat period in
nanoseconds (zero if one-shot).  The C++ field `repeat` is spelled
`repeats` because `repeat` is reserved in Lean. -/
structure Timer where
  expiration : Nat
  interval : Nat
  callback : List CbAction
  id : Nat
  repeats : Bool
  deriving DecidableEq, Repr

/-- `Timer::operator<`: earliest expiration first, ties broken by id. -/
def Timer.lt (a b : Timer) : Bool :=
  if a.expiration ≠ b.expiration then decide (a.expiration < b.expiration)
  else decide (a.id < b.id)

/-- Ordered insertion into the `std::set<Timer>` kept sorted by
`Timer::operator<`. -/
def insertSorted (t : Timer) : List Timer → List Timer
  | [] => [t]
  | x :: xs => if Timer.lt t x then t :: x :: xs else x :: insertSorted t xs

/-- The reactor's timer bookkeeping: the ordered set `m_timers`, the key
set of the id index `m_activeTimers`, the timerfd arming and the id
counter.  `armed = none` models a disarmed timerfd; `armed = some v`
models `timerfd_settime(fd, TFD_TIMER_ABSTIME, {v})`, i.e. the timerfd
will fire when the monotonic clock reaches the absolute instant `v`
nanoseconds. -/
structure LoopState where
  timers : List Timer
  activeIds : List Nat
  armed : Option Nat
  nextTimerId : Nat
  deriving DecidableEq, Repr

/-- `EventLoop::resetTimerFd` (EventLoop.cc lines 233-260): disarm when
the set is empty; otherwise write an `itimerspec` holding either 1 ns
(head already expired) or the duration `expiration - now`, passing
`TFD_TIMER_ABSTIME` - so the absolute instant the timerfd is armed to is
exactly the duration value that was computed. -/
def resetTimerFd (now : Nat) (st : LoopState) : LoopState :=
  match st.timers with
  | [] => { st with armed := none }
  | t :: _ =>
    if t.expiration ≤ now then { st with armed := some 1 }
    else { st with armed := some (t.expiration - now) }

/-- `EventLoop::insertTimer` (EventLoop.cc lines 219-231): insert into
the set and the id index, re-arming the timerfd when the earliest entry
changed. -/
def insertTimer (now : Nat) (t : Timer) (st : LoopState) : LoopState :=
  let earliestChanged :=
    match st.timers with
    | [] => true
    | x :: _ => decide (t.expiration < x.expiration)
  let st' := { st with
                timers := insertSorted t st.timers,
                activeIds := t.id :: st.activeIds }
  if earliestChanged then resetTimerFd now st' else st'

/-- `EventLoop::runAfter` (EventLoop.cc lines 172-185); the delay is in
milliseconds and may be negative (`EINVAL` = 22). -/
def runAfter (now : Nat) (delayMs : Int) (cb : List CbAction) (st : LoopState) :
    Except Nat Nat × LoopState :=
  if delayMs < 0 then (.error 22, st)
  else
    let id := st.nextTimerId
    let st := { st with nextTimerId := id + 1 }
    let expNs := now + delayMs.toNat * 1000000
    (.ok id, insertTimer now ⟨expNs, 0, cb, id, false⟩ st)

/-- `EventLoop::runEvery` (EventLoop.cc lines 187-199). -/
def runEvery (now : Nat) (intervalMs : Int) (cb : List CbAction) (st : LoopState) :
    Except Nat Nat × LoopState :=
  if intervalMs ≤ 0 then (.error 22, st)
  else
    let id := st.nextTimerId
    let st := { st with nextTimerId := id + 1 }
    let expNs := now + intervalMs.toNat * 1000000
    (.ok id, insertTimer now ⟨expNs, intervalMs.toNat * 1000000, cb, id, true⟩ st)

/-- `EventLoop::cancelTimer` (EventLoop.cc lines 201-217): `ENOENT` (= 2)
when the id is not in the index, otherwise erase the timer from the set
and the index and re-arm the timerfd. -/
def cancelTimer (now : Nat) (id : Nat) (st : LoopState) :
    Except Nat Unit × LoopState :=
  if st.activeIds.contains id then
    let st := { st with
                 timers := st.timers.filter (fun t => t.id ≠ id),
                 activeIds := st.activeIds.erase id }
    (.ok (), resetTimerFd now st)
  else (.error 2, st)

/-- Execution of the event-loop operations a callback performs (results
of re-entrant `cancelTimer` calls are discarded, as user code that
ignores the returned `Result` does). -/
def runCallback (now : Nat) (st : LoopState) (cb : List CbAction) : LoopState :=
  cb.foldl (fun s a => match a with | .cancel id => (cancelTimer now id s).2) st

/-- The extraction loop of `EventLoop::handleTimerRead` (EventLoop.cc
lines 277-283): move every timer with `expiration ≤ now` out of the set
and the id index, in set order, into the local `expired` sequence. -/
def extractExpired (now : Nat) : List Timer → List Nat → List Timer × List Nat × List Timer
  | [], ids => ([], ids, [])
  | t :: rest, ids =>
    if t.expiration ≤ now then
      let (rem, ids', exp) := extractExpired now rest (ids.erase t.id)
      (rem, ids', t :: exp)
    else (t :: rest, ids, [])

/-- `EventLoop::handleTimerRead` (EventLoop.cc lines 262-300) after a
successful timerfd read: extract the expired timers, run each callback,
reinsert repeating timers at `previous expiration + interval`
(unconditionally - the loop does not consult the id index before
reinserting), then re-arm the timerfd.  Also returns the ids whose
callbacks were invoked, in firing order. -/
def handleTimerRead (now : Nat) (st : LoopState) : LoopState × List Nat :=
  let (rem, ids, expired) := extractExpired now st.timers st.activeIds
  let st := { st with timers := rem, activeIds := ids }
  let st := expired.foldl
    (fun s t =>
      let s := runCallback now s t.callback
      if t.repeats then insertTimer now { t with expiration := t.expiration + t.interval } s
      else s) st
  (resetTimerFd now st, expired.map Timer.id)

/-- The reactor's source table and the kernel's epoll interest set.  A
stored dispatch record is modelled as an opaque numeric identifier; the
dense `m_fastSources` array holds `none` where the record's handler is
`std::monostate`.  The bound `MAX_FAST_FDS` and the `m_fastSources` /
`m_slowSources` split are declared in an EventLoop.h revision absent
from the tree; modelled from the spec: "A small-integer-keyed dense
array may shadow the mapping for descriptors below a configurable
bound", so the bound is a parameter `maxFastFds` here. -/
structure SourcesState where
  fastSources : List (Option Nat)
  slowSources : List (Nat × Nat)
  epollSet : List Nat
  deriving DecidableEq, Repr

/-- The dispatch record currently stored for `fd`, if any. -/
def lookupSource (maxFastFds : Nat) (st : SourcesState) (fd : Nat) : Option Nat :=
  if fd < maxFastFds then st.fastSources.getD fd none
  else st.slowSources.lookup fd

/-- `EventLoop::addSource` (EventLoop.cc lines 61-87) for a non-negative
descriptor: store the record first, then `epoll_ctl(ADD)`; a kernel
failure (the fd already watched gives `EEXIST` = 17) is returned but the
stored record is not rolled back. -/
def addSource (maxFastFds : Nat) (st : SourcesState) (fd : Nat) (rec : Nat) :
    Except Nat Unit × SourcesState :=
  let st :=
    if fd < maxFastFds then { st with fastSources := st.fastSources.set fd (some rec) }
    else { st with slowSources := (fd, rec) :: st.slowSources.filter (fun p => p.1 ≠ fd) }
  if st.epollSet.contains fd then (.error 17, st)
  else (.ok (), { st with epollSet := fd :: st.epollSet })

/-- `EventLoop::removeSource` (EventLoop.cc lines 89-108): the stored
dispatch record is dropped unconditionally (array slot reset to
`std::monostate`, map entry erased) BEFORE `epoll_ctl(DEL)`; a
descriptor the kernel is not watching makes `epoll_ctl` fail with
`ENOENT` (= 2), which is returned - but the record is already gone. -/
def removeSource (maxFastFds : Nat) (st : SourcesState) (fd : Nat) :
    Except Nat Unit × SourcesState :=
  let st :=
    if fd < maxFastFds then { st with fastSources := st.fastSources.set fd none }
    else { st with slowSources := st.slowSources.filter (fun p => p.1 ≠ fd) }
  if st.epollSet.contains fd then (.ok (), { st with epollSet := st.epollSet.erase fd })
  else (.error 2, st)

end EventLoop

namespace PcapReceiver

/-- The subscription bookkeeping of a `PcapReceiver`: the dense
`m_portTable` (a cleared entry is the default `{nullptr, nullptr}`
subscription) and the inherited `PacketReceiver::m_port_to_fd_map`. -/
structure SubsState where
  portTable : Nat → Subscription
  portToFd : List (Nat × Nat)

/-- A freshly constructed receiver: every port-table entry
default-constructed, no sockets. -/
def SubsState.init : SubsState :=
  ⟨fun _ => ⟨0, none⟩, []⟩

/-- `PacketReceiver::subscribe` (PacketReceiver.cc lines 89-109): the
validation-only base step.  It checks the handler, the fd cap and
duplicate ports against `m_port_to_fd_map` - and inserts nothing. -/
def baseSubscribe (maxFds : Nat) (st : SubsState) (port : Nat)
    (handler : Option Nat) : Except Nat Unit :=
  if handler = none then .error 22
  else if 0 < maxFds ∧ maxFds ≤ st.portToFd.length then .error 24
  else if (st.portToFd.lookup port).isSome then .error 98
  else .ok ()

/-- `PcapReceiver::subscribe` (PcapReceiver.cc lines 164-179): base
validation, then store `{context, handler}` at `m_portTable[port]` and
return the port as the subscription id. -/
def subscribe (maxFds : Nat) (st : SubsState) (port ctx : Nat)
    (handler : Option Nat) : Except Nat Nat × SubsState :=
  match baseSubscribe maxFds st port handler with
  | .error e => (.error e, st)
  | .ok _ =>
    (.ok port,
     { st with portTable := fun p => if p = port then ⟨ctx, handler⟩ else st.portTable p })

/-- `PcapReceiver::unsubscribe` (PcapReceiver.cc lines 181-189) on top of
`PacketReceiver::unsubscribe` (PacketReceiver.cc lines 111-135): the
base looks the port up in `m_port_to_fd_map`, failing with `ENOENT`
when absent; on a hit it removes the descriptor from the event loop and
erases the map entry.  Only when the base succeeds does the override
reach `m_portTable[port] = {}`. -/
def unsubscribe (maxFastFds : Nat) (loopSt : EventLoop.SourcesState)
    (st : SubsState) (port : Nat) :
    Except Nat Unit × EventLoop.SourcesState × SubsState :=
  match st.portToFd.lookup port with
  | none => (.error 2, loopSt, st)
  | some fd =>
    let (loopRes, loopSt') := EventLoop.removeSource maxFastFds loopSt fd
    let st' := { st with portToFd := st.portToFd.filter (fun p => p.1 ≠ port) }
    match loopRes with
    | .error e => (.error e, loopSt', st')
    | .ok _ =>
      (.ok (), loopSt',
       { st' with portTable := fun p => if p = port then ⟨0, none⟩ else st'.portTable p })

end PcapReceiver

namespace UDPReceiver

/-- What the kernel hands back for one slot of a `recvmmsg` batch: the
reported datagram length (`msg_len`), whether `MSG_TRUNC` was set in
`msg_flags`, and the nanosecond timestamp the kernel holds for the
datagram - deliverable only through ancillary control messages, which
this receiver never requests: the constructor zeroes every `mmsghdr`
(`msg_control = nullptr`), the declared `m_controlBuffers` are never
attached, and no socket option enabling timestamps is set. -/
structure KernelMsg where
  msgLen : Nat
  msgFlagsTrunc : Bool
  kernelTsNs : Option Timespec
  deriving DecidableEq, Repr

/-- Modelled from the spec: the `PacketStatus` bits (`OK = 0`,
`TRUNCATED = 1`) are declared in `Types.h`, which is not present in the
source tree. -/
def TRUNCATED : Nat := 1

/-- One handler invocation performed by `UDPReceiver::handleRead`.  The
spec-level handler signature is
`fn(context, data_ptr, length, status_bits, timestamp)` (modelled from
the spec, `Types.h` being absent); the call site in UDPReceiver.cc line
237 is `handler(context, packetData, len, status)` and supplies no
timestamp argument, recorded here as `tsArg = none`. -/
structure UdpDispatch where
  context : Nat
  payloadOff : Nat
  len : Nat
  status : Nat
  tsArg : Option Timespec
  deriving DecidableEq, Repr

/-- `UDPReceiver::handleRead` (UDPReceiver.cc lines 206-240): a negative
`recvmmsg` return (`msgs = none`) dispatches nothing; otherwise, for
each returned message `k`, set the TRUNCATED bit exactly when the
kernel flagged truncation, and when the reported length is positive
invoke the handler on the slot payload at `base + k * stride`
(`stride = m_alignedBufferSize`).  No ancillary control messages are
scanned. -/
def handleRead (ctx : Nat) (stride : Nat) (msgs : Option (List KernelMsg)) :
    List UdpDispatch :=
  match msgs with
  | none => []
  | some ms =>
    ms.enum.filterMap fun km =>
      let status := if km.2.msgFlagsTrunc then TRUNCATED else 0
      if 0 < km.2.msgLen then some ⟨ctx, km.1 * stride, km.2.msgLen, status, none⟩
      else none

end UDPReceiver

/-! Concrete inputs used by the counterexamples and evaluations below. -/

namespace PcapReceiver

/-- A 24-byte capture file whose magic loads as `0xDEADBEEF`, matching
none of the five recognized values. -/
def badMagicFile : List Byte := 0xEF :: 0xBE :: 0xAD :: 0xDE :: List.replicate 20 0

/-- A well-formed 44-byte Ethernet + IPv4 + UDP frame destined to port
5000 with a 2-byte payload `AB CD`. -/
def frame5000 : List Byte :=
  [0, 0, 0, 0, 0, 0, 0, 0, 0, 0, 0, 0, 0x08, 0x00,
   0x45, 0, 0, 0, 0, 0, 0, 0, 0, 17, 0, 0, 0, 0, 0, 0, 0, 0, 0, 0,
   0, 0, 0x13, 0x88, 0, 10, 0, 0,
   0xAB, 0xCD]

/-- A 40-byte legacy capture: valid native microsecond global header with
link type 1 (Ethernet), followed by a single 16-byte packet header
declaring `caplen = len = 100` - but zero payload bytes follow. -/
def oobFile : List Byte :=
  encodeU32le MAGIC_MICRO_BE ++ List.replicate 16 0 ++ encodeU32le 1 ++
  encodeU32le 0 ++ encodeU32le 0 ++ encodeU32le 100 ++ encodeU32le 100

/-- A 60-byte next-gen capture: a minimal Section Header Block followed
directly by an Enhanced Packet Block referencing interface 0, with no
Interface Description Block anywhere. -/
def ngForwardRefFile : List Byte :=
  [0x0A, 0x0D, 0x0D, 0x0A] ++ encodeU32le 28 ++ [0x4D, 0x3C, 0x2B, 0x1A] ++
  encodeU32le 0 ++ encodeU32le 0xFFFFFFFF ++ encodeU32le 0xFFFFFFFF ++ encodeU32le 28 ++
  encodeU32le 6 ++ encodeU32le 32 ++ encodeU32le 0 ++ encodeU32le 0 ++ encodeU32le 0 ++
  encodeU32le 0 ++ encodeU32le 0 ++ encodeU32le 32

end PcapReceiver

/-! Theorems settling the claims. -/

/-- C4 counterexample: a 24-byte file whose magic `0xDEADBEEF` matches
none of the five recognized values is NOT rejected - `open` falls
through the else-less legacy chain and returns OK, treating the file as
a native-endian microsecond legacy capture.  This refutes "returns OK
only for a recognized magic". -/
theorem openCapture_accepts_unknown_magic :
    loadU32le PcapReceiver.badMagicFile 0 = 0xDEADBEEF
    ∧ PcapReceiver.openCapture PcapReceiver.badMagicFile =
        .ok ⟨false, false, false, 0, 24⟩ :=
  ⟨by decide, rfl⟩

/-- C4 amended: `open` returns the FORMAT error (`EINVAL`) exactly when
the file is shorter than the 24-byte header, or when the magic is the
next-gen Section Header Block magic and the byte-order magic at offset 8
is neither the native nor the swapped value; any other magic - including
one matching none of the five recognized values - yields OK. -/
theorem openCapture_error_characterization :
    ∀ file : List Byte,
      (file.length < 24 → PcapReceiver.openCapture file = .error 22)
      ∧ (24 ≤ file.length →
          loadU32le file 0 = PcapReceiver.MAGIC_PCAPNG_SHB →
          loadU32le file 8 ≠ PcapReceiver.PCAPNG_BOM →
          loadU32le file 8 ≠ PcapReceiver.PCAPNG_BOM_SWAP →
          PcapReceiver.openCapture file = .error 22)
      ∧ (24 ≤ file.length →
          loadU32le file 0 ≠ PcapReceiver.MAGIC_PCAPNG_SHB →
          ∃ fs, PcapReceiver.openCapture file = .ok fs) := by
  intro file
  refine ⟨fun h => ?_, fun h24 hm hb1 hb2 => ?_, fun h24 hm => ?_⟩
  · simp only [PcapReceiver.openCapture, if_pos h]
  · simp only [PcapReceiver.openCapture, if_neg (show ¬file.length < 24 from by omega),
      if_pos hm, if_neg hb1, if_neg hb2]
  · simp only [PcapReceiver.openCapture, if_neg (show ¬file.length < 24 from by omega),
      if_neg hm]
    exact ⟨_, rfl⟩

/-- C4 witness: the amended characterization applied to the unknown-magic
file. -/
theorem openCapture_error_characterization_witness :
    ∃ fs, PcapReceiver.openCapture PcapReceiver.badMagicFile = .ok fs :=
  (openCapture_error_characterization PcapReceiver.badMagicFile).2.2
    (by decide) (by decide)

/-- C2: with one pending timer at absolute expiration 100 ns and the
monotonic clock at 10 ns, `resetTimerFd` arms the timerfd - under
`TFD_TIMER_ABSTIME` - to the absolute instant 90 ns (the relative delta
`expiration - now`), not to the earliest expiration 100 ns.  The armed
value therefore does not reflect the earliest entry of the ordered set,
refuting the claimed invariant. -/
theorem resetTimerFd_arms_relative_delta_as_absolute :
    (EventLoop.resetTimerFd 10 ⟨[⟨100, 0, [], 1, false⟩], [1], none, 2⟩).armed = some 90
    ∧ ((⟨[⟨100, 0, [], 1, false⟩], [1], none, 2⟩ : EventLoop.LoopState).timers.map
        EventLoop.Timer.expiration) = [100]
    ∧ (90 : Nat) ≠ 100 :=
  ⟨rfl, rfl, by decide⟩

/-- C9 counterexample: a state in which descriptor 5 has a stored
dispatch record but is not in the kernel's epoll set (exactly what a
partially failed `addSource` leaves behind).  `removeSource 5` returns
the NOT_FOUND error - and the stored record is gone, refuting "the
record is dropped only on success". -/
theorem removeSource_drops_record_on_error :
    (EventLoop.removeSource 8 ⟨(List.replicate 8 none).set 5 (some 77), [], []⟩ 5).1 = .error 2
    ∧ EventLoop.lookupSource 8 ⟨(List.replicate 8 none).set 5 (some 77), [], []⟩ 5 = some 77
    ∧ EventLoop.lookupSource 8
        (EventLoop.removeSource 8 ⟨(List.replicate 8 none).set 5 (some 77), [], []⟩ 5).2 5 =
        none :=
  ⟨rfl, rfl, rfl⟩

/-- Looking a key up after filtering out every pair with that key yields
nothing. -/
lemma lookup_filter_ne (l : List (Nat × Nat)) (fd : Nat) :
    (l.filter (fun p => p.1 ≠ fd)).lookup fd = none := by
  induction l with
  | nil => rfl
  | cons hd t ih =>
    obtain ⟨a, b⟩ := hd
    by_cases hk : a = fd
    · simpa [List.filter_cons, hk] using ih
    · have h1 : ((a, b) :: t).filter (fun p => decide (p.1 ≠ fd))
          = (a, b) :: t.filter (fun p => decide (p.1 ≠ fd)) := by
        simp [List.filter_cons, hk]
      rw [h1, List.lookup_cons, beq_false_of_ne (Ne.symm hk)]
      exact ih

/-- C9 amended: `remove_source` on a descriptor the kernel is not
watching (in particular any unregistered descriptor) fails with
NOT_FOUND, and the stored dispatch record for the descriptor is dropped
unconditionally - before the kernel deregistration - so after any
`remove_source(fd)`, error or not, no record remains for `fd`. -/
theorem removeSource_not_found_and_always_drops :
    ∀ (maxFastFds : Nat) (st : EventLoop.SourcesState) (fd : Nat),
      st.fastSources.length = maxFastFds →
      (fd ∉ st.epollSet → (EventLoop.removeSource maxFastFds st fd).1 = .error 2)
      ∧ EventLoop.lookupSource maxFastFds (EventLoop.removeSource maxFastFds st fd).2 fd =
          none := by
  intro maxFastFds st fd hlen
  constructor
  · intro hmem
    unfold EventLoop.removeSource
    by_cases hfd : fd < maxFastFds <;> simp [hfd, hmem]
  · unfold EventLoop.removeSource EventLoop.lookupSource
    by_cases hfd : fd < maxFastFds
    · have hset : (st.fastSources.set fd none)[fd]?.getD none = none := by
        rw [List.getElem?_set_eq_of_lt]
        · rfl
        · omega
      by_cases hc : fd ∈ st.epollSet <;> simp [hfd, hc, hset]
    · by_cases hc : fd ∈ st.epollSet <;>
        simpa [hfd, hc] using lookup_filter_ne st.slowSources fd

/-- C9 witness: the amended statement applied to the concrete
partial-registration state. -/
theorem removeSource_not_found_and_always_drops_witness :
    ((5 : Nat) ∉ ([] : List Nat) →
      (EventLoop.removeSource 8 ⟨(List.replicate 8 none).set 5 (some 77), [], []⟩ 5).1 =
        .error 2)
    ∧ EventLoop.lookupSource 8
        (EventLoop.removeSource 8 ⟨(List.replicate 8 none).set 5 (some 77), [], []⟩ 5).2 5 =
        none :=
  removeSource_not_found_and_always_drops 8
    ⟨(List.replicate 8 none).set 5 (some 77), [], []⟩ 5 (by decide)

/-- C6 counterexample: a batch with one 10-byte message for which the
kernel holds nanosecond timestamp {5, 7}.  The dispatched call carries
no timestamp argument at all (`tsArg = none`), refuting "the timestamp
argument is the kernel nanosecond timestamp from the ancillary control
messages when present". -/
theorem handleRead_no_timestamp_argument :
    UDPReceiver.handleRead 0 2048 (some [⟨10, false, some ⟨5, 7⟩⟩]) =
      [⟨0, 0, 10, 0, none⟩]
    ∧ (none : Option Timespec) ≠ some ⟨5, 7⟩ :=
  ⟨rfl, by decide⟩

/-- C6 amended: on the batched read path, each message `k` with positive
reported length produces exactly one handler invocation, with payload
offset `k · stride`, the TRUNCATED bit set exactly when the kernel
flagged truncation - and no timestamp argument: the receiver never
attaches control buffers, so no ancillary timestamp is ever extracted or
passed (`tsArg = none` on every call). -/
theorem handleRead_status_payload_no_ts :
    ∀ (ctx stride : Nat) (msgs : List UDPReceiver.KernelMsg),
      (∀ e ∈ UDPReceiver.handleRead ctx stride (some msgs),
        ∃ k m, msgs[k]? = some m ∧ 0 < m.msgLen ∧
          e = ⟨ctx, k * stride, m.msgLen,
               if m.msgFlagsTrunc then UDPReceiver.TRUNCATED else 0, none⟩)
      ∧ (∀ (k : Nat) (m : UDPReceiver.KernelMsg), msgs[k]? = some m → 0 < m.msgLen →
          (⟨ctx, k * stride, m.msgLen,
            if m.msgFlagsTrunc then UDPReceiver.TRUNCATED else 0,
            none⟩ : UDPReceiver.UdpDispatch) ∈
            UDPReceiver.handleRead ctx stride (some msgs)) := by
  intro ctx stride msgs
  constructor
  · intro e he
    simp only [UDPReceiver.handleRead, List.mem_filterMap] at he
    obtain ⟨⟨k, m⟩, hmem, hf⟩ := he
    rw [List.mk_mem_enum_iff_getElem?] at hmem
    refine ⟨k, m, hmem, ?_⟩
    by_cases hlen : 0 < m.msgLen
    · simp only [hlen, if_pos] at hf
      exact ⟨hlen, (Option.some_inj.mp hf).symm⟩
    · simp [hlen] at hf
  · intro k m hk hlen
    simp only [UDPReceiver.handleRead, List.mem_filterMap]
    refine ⟨(k, m), ?_, ?_⟩
    · rw [List.mk_mem_enum_iff_getElem?]; exact hk
    · simp [hlen]

/-- C6 witness: the amended statement applied to a concrete two-message
batch (one truncated message, one empty slot). -/
theorem handleRead_status_payload_no_ts_witness :
    (⟨3, 64, 5, UDPReceiver.TRUNCATED, none⟩ : UDPReceiver.UdpDispatch) ∈
      UDPReceiver.handleRead 3 64 (some [⟨0, false, none⟩, ⟨5, true, none⟩]) :=
  (handleRead_status_payload_no_ts 3 64 [⟨0, false, none⟩, ⟨5, true, none⟩]).2
    1 ⟨5, true, none⟩ (by decide) (by decide)

/-- C10: the 40-byte legacy capture `oobFile` opens successfully, its
single packet header passes the only bounds check performed (the
16-byte header fits the mapping) while declaring `caplen = 100`, and
the subsequent `step()` hands the parser a payload extending past the
mapping: the parser's Ethernet ether-type load touches bytes outside the
mapping (`oobRead`), and step advances the cursor to 140 in a 40-byte
file and returns true.  This refutes "every byte read by step() and the
layer parser lies inside the memory mapping". -/
theorem step_reads_outside_mapping :
    PcapReceiver.openCapture PcapReceiver.oobFile = .ok ⟨false, false, false, 1, 24⟩
    ∧ (PcapReceiver.step .STEP 1 0 PcapReceiver.oobFile (fun _ => ⟨0, none⟩)
        (PcapReceiver.ReplayState.ofFormat ⟨false, false, false, 1, 24⟩)).1 =
        .stepped .oobRead
    ∧ (PcapReceiver.step .STEP 1 0 PcapReceiver.oobFile (fun _ => ⟨0, none⟩)
        (PcapReceiver.ReplayState.ofFormat ⟨false, false, false, 1, 24⟩)).2.cursor = 140
    ∧ PcapReceiver.oobFile.length = 40 :=
  ⟨rfl, rfl, rfl, rfl⟩

/-- C1: on a fresh `PcapReceiver`, `subscribe(5000, ctx, handler)`
succeeds and stores the handler - but `m_port_to_fd_map` stays empty
(the base class only validates), so the following `unsubscribe(5000)`
fails in `PacketReceiver::unsubscribe` with NOT_FOUND before ever
reaching `m_portTable[port] = {}`: the entry survives, and a replayed
UDP frame to port 5000 still invokes the handler. -/
theorem unsubscribe_leaves_handler_installed :
    (PcapReceiver.subscribe 128 PcapReceiver.SubsState.init 5000 7 (some 3)).1 = .ok 5000
    ∧ (PcapReceiver.unsubscribe 8 ⟨List.replicate 8 none, [], []⟩
        (PcapReceiver.subscribe 128 PcapReceiver.SubsState.init 5000 7 (some 3)).2 5000).1 =
        .error 2
    ∧ (PcapReceiver.unsubscribe 8 ⟨List.replicate 8 none, [], []⟩
        (PcapReceiver.subscribe 128 PcapReceiver.SubsState.init 5000 7 (some 3)).2
        5000).2.2.portTable 5000 = ⟨7, some 3⟩
    ∧ PcapReceiver.parseAndDispatch ⟨0, 0⟩ 44 44 PcapReceiver.frame5000 0 1
        ((PcapReceiver.unsubscribe 8 ⟨List.replicate 8 none, [], []⟩
          (PcapReceiver.subscribe 128 PcapReceiver.SubsState.init 5000 7 (some 3)).2
          5000).2.2.portTable) =
        .dispatched ⟨7, 3, 42, 2, 0, ⟨0, 0⟩⟩ :=
  ⟨rfl, rfl, rfl, rfl⟩

/-- C3 counterexample: a repeating timer (id 1, expiration 5, interval
10) whose callback cancels its own id.  `handleTimerRead` at `now = 5`
fires it, the re-entrant cancel finds the id already absent from the
index (NOT_FOUND) - and the loop reinserts the timer at expiration 15
anyway.  This refutes "a cancel issued during the callback of a repeat
timer prevents its reinsertion". -/
theorem cancel_during_callback_does_not_prevent_reinsertion :
    (EventLoop.handleTimerRead 5
        ⟨[⟨5, 10, [.cancel 1], 1, true⟩], [1], some 5, 2⟩).2 = [1]
    ∧ ((EventLoop.handleTimerRead 5
        ⟨[⟨5, 10, [.cancel 1], 1, true⟩], [1], some 5, 2⟩).1.timers.map
          (fun t => (t.id, t.expiration))) = [(1, 15)]
    ∧ (EventLoop.handleTimerRead 5
        ⟨[⟨5, 10, [.cancel 1], 1, true⟩], [1], some 5, 2⟩).1.activeIds = [1] :=
  ⟨rfl, rfl, rfl⟩

/-- C5 counterexample: replaying `ngForwardRefFile` (an Enhanced Packet
Block referencing interface 0 with no preceding Interface Description
Block), the step is NOT a silent per-packet drop: it reaches the
timestamp conversion with the default-constructed interface entry whose
divisor is 0, i.e. it performs the division `ts_raw / divisor` with a
zero divisor (undefined behaviour), dispatching nothing by crashing
rather than by dropping. -/
theorem stepPcapNg_divides_by_zero_on_forward_reference :
    PcapReceiver.openCapture PcapReceiver.ngForwardRefFile = .ok ⟨true, false, true, 0, 0⟩
    ∧ (PcapReceiver.stepPcapNg .STEP 1 0 PcapReceiver.ngForwardRefFile (fun _ => ⟨0, none⟩)
        (PcapReceiver.ReplayState.ofFormat ⟨true, false, true, 0, 0⟩)).1 = .divByZero := by
  refine ⟨rfl, ?_⟩
  rw [PcapReceiver.stepPcapNg.eq_def]
  show (PcapReceiver.stepPcapNg .STEP 1 0 PcapReceiver.ngForwardRefFile (fun _ => ⟨0, none⟩)
      ⟨28, false, true, ⟨0, 0⟩, 0, true, false, true, 0, [], 0⟩).1 = .divByZero
  rw [PcapReceiver.stepPcapNg.eq_def]
  rfl

/-- C5 amended: whenever the block at the cursor is an Enhanced Packet
Block (type 6) that fits the mapping and whose interface index has no
entry in the interface table, `stepPcapNg` reaches the timestamp
division with the default-constructed divisor 0 and the step's outcome
is the division by zero - not a drop, not a dispatch, not a stream
error. -/
theorem stepPcapNg_forward_reference_hits_zero_divisor :
    ∀ (mode : PcapReceiver.ReplayMode) (speed : ℚ) (now : Nat) (file : List Byte)
      (table : Nat → PcapReceiver.Subscription) (st : PcapReceiver.ReplayState)
      (ifId0 tsH tsL : Nat),
      st.cursor + 8 ≤ file.length →
      (if st.swapped then bswap32 (loadU32le file st.cursor)
       else loadU32le file st.cursor) = 6 →
      8 ≤ (if st.swapped then bswap32 (loadU32le file (st.cursor + 4))
           else loadU32le file (st.cursor + 4)) →
      st.cursor + (if st.swapped then bswap32 (loadU32le file (st.cursor + 4))
                   else loadU32le file (st.cursor + 4)) ≤ file.length →
      readU32le file (st.cursor + 8) = some ifId0 →
      readU32le file (st.cursor + 12) = some tsH →
      readU32le file (st.cursor + 16) = some tsL →
      st.interfaces.lookup (if st.swapped then bswap32 ifId0 else ifId0) = none →
      (PcapReceiver.stepPcapNg mode speed now file table st).1 = .divByZero := by
  intro mode speed now file table st ifId0 tsH tsL h8 htype hblen hfit hif hth htl hlook
  rw [PcapReceiver.stepPcapNg.eq_def]
  rw [dif_neg (show ¬file.length < st.cursor + 8 from by omega)]
  rw [dif_neg (show ¬((if st.swapped then bswap32 (loadU32le file (st.cursor + 4))
        else loadU32le file (st.cursor + 4)) < 8 ∨
      file.length < st.cursor + (if st.swapped then bswap32 (loadU32le file (st.cursor + 4))
        else loadU32le file (st.cursor + 4))) from not_or.mpr ⟨by omega, by omega⟩)]
  rw [if_pos htype, hif, hth, htl]
  simp only [hlook]
  simp

/-- C5 witness: the amended statement applied to `ngForwardRefFile` with
the cursor already past the Section Header Block. -/
theorem stepPcapNg_forward_reference_hits_zero_divisor_witness :
    (PcapReceiver.stepPcapNg .STEP 1 0 PcapReceiver.ngForwardRefFile (fun _ => ⟨0, none⟩)
      ⟨28, false, true, ⟨0, 0⟩, 0, true, false, true, 0, [], 0⟩).1 = .divByZero :=
  stepPcapNg_forward_reference_hits_zero_divisor .STEP 1 0 PcapReceiver.ngForwardRefFile
    (fun _ => ⟨0, none⟩) ⟨28, false, true, ⟨0, 0⟩, 0, true, false, true, 0, [], 0⟩ 0 0 0
    (by decide) (by decide) (by decide) (by decide) (by decide) (by decide) (by decide) rfl

/-- Re-arming the timerfd never changes the timer set. -/
lemma resetTimerFd_timers (now : Nat) (st : EventLoop.LoopState) :
    (EventLoop.resetTimerFd now st).timers = st.timers := by
  unfold EventLoop.resetTimerFd
  cases st.timers with
  | nil => rfl
  | cons t rest => dsimp only; split <;> rfl

/-- Every timer in the `expired` sequence extracted by the timer read
came from the pending set and was due. -/
lemma extractExpired_mem (now : Nat) (l : List EventLoop.Timer) (ids : List Nat)
    (t : EventLoop.Timer) (h : t ∈ (EventLoop.extractExpired now l ids).2.2) :
    t ∈ l ∧ t.expiration ≤ now := by
  induction l generalizing ids with
  | nil => simp [EventLoop.extractExpired] at h
  | cons hd tl ih =>
    unfold EventLoop.extractExpired at h
    by_cases hexp : hd.expiration ≤ now
    · rw [if_pos hexp] at h
      simp only at h
      rcases List.mem_cons.mp h with h1 | h1
      · exact ⟨by simp [h1], h1 ▸ hexp⟩
      · obtain ⟨hmem, hle⟩ := ih _ h1
        exact ⟨List.mem_cons_of_mem _ hmem, hle⟩
    · rw [if_neg hexp] at h
      simp at h

/-- C3 amended: (i) a successful `cancel_timer(id)` - in particular any
cancel issued strictly before the timer is extracted at its expiration -
removes every timer with that id from the pending set; (ii) the timer
read only ever fires ids that were present and due in the pending set,
so a timer cancelled beforehand never fires; (iii) BUT a cancel issued
during the callback of a repeating timer does not prevent reinsertion:
the timer, already extracted, is put back at `expiration + interval`
unconditionally. -/
theorem cancelTimer_effect_and_repeat_reinsertion :
    (∀ (now id : Nat) (st : EventLoop.LoopState),
      (EventLoop.cancelTimer now id st).1 = .ok () →
      ∀ t ∈ (EventLoop.cancelTimer now id st).2.timers, t.id ≠ id)
    ∧ (∀ (now : Nat) (st : EventLoop.LoopState) (id : Nat),
      id ∈ (EventLoop.handleTimerRead now st).2 →
      ∃ t ∈ st.timers, t.id = id ∧ t.expiration ≤ now)
    ∧ (∀ (exp intv cid n now : Nat) (arm : Option Nat), exp ≤ now →
      ((EventLoop.handleTimerRead now
        ⟨[⟨exp, intv, [.cancel cid], cid, true⟩], [cid], arm, n⟩).1.timers.map
          (fun t => (t.id, t.expiration))) = [(cid, exp + intv)]) := by
  refine ⟨?_, ?_, ?_⟩
  · intro now id st hok t ht
    unfold EventLoop.cancelTimer at hok ht
    by_cases hmem : st.activeIds.contains id
    · rw [if_pos hmem] at ht
      simp only [resetTimerFd_timers] at ht
      have := List.of_mem_filter ht
      simpa using this
    · rw [if_neg hmem] at hok
      exact absurd hok (by simp)
  · intro now st id hid
    unfold EventLoop.handleTimerRead at hid
    simp only [List.mem_map] at hid
    obtain ⟨t, ht, rfl⟩ := hid
    obtain ⟨hmem, hle⟩ := extractExpired_mem now st.timers st.activeIds t ht
    exact ⟨t, hmem, rfl, hle⟩
  · intro exp intv cid n now arm h
    unfold EventLoop.handleTimerRead EventLoop.extractExpired
    rw [if_pos h]
    simp only [EventLoop.extractExpired, List.erase_cons_head, List.foldl_cons,
      EventLoop.runCallback, List.foldl_nil, EventLoop.cancelTimer,
      EventLoop.insertTimer, EventLoop.insertSorted]
    simp [resetTimerFd_timers]

/-- C3 witness: the amended statement's reinsertion clause at a concrete
repeating timer. -/
theorem cancelTimer_effect_and_repeat_reinsertion_witness :
    ((EventLoop.handleTimerRead 7
      ⟨[⟨7, 10, [.cancel 2], 2, true⟩], [2], none, 5⟩).1.timers.map
        (fun t => (t.id, t.expiration))) = [(2, 17)] :=
  cancelTimer_effect_and_repeat_reinsertion.2.2 7 10 2 5 7 none (by decide)

/-- Reading past a prefix addresses the suffix. -/
lemma byteAt_append_right (pre l : List Byte) (i : Nat) :
    byteAt (pre ++ l) (pre.length + i) = byteAt l i := by
  simp [byteAt, List.getD_eq_getElem?_getD,
    List.getElem?_append_right (by omega : pre.length ≤ pre.length + i)]

/-- A 32-bit load at the end of a prefix is the load at the head of the
suffix. -/
lemma loadU32le_append (pre l : List Byte) :
    loadU32le (pre ++ l) pre.length = loadU32le l 0 := by
  have h0 : byteAt (pre ++ l) (pre.length + 0) = byteAt l 0 := byteAt_append_right pre l 0
  have h1 := byteAt_append_right pre l 1
  have h2 := byteAt_append_right pre l 2
  have h3 := byteAt_append_right pre l 3
  simp only [Nat.add_zero] at h0
  simp [loadU32le, h0, h1, h2, h3]

/-- A native load of a little-endian-serialized 32-bit value recovers
the value. -/
lemma loadU32le_encodeU32le (v : Nat) (rest : List Byte) (hv : v < 2 ^ 32) :
    loadU32le (encodeU32le v ++ rest) 0 = v := by
  simp [loadU32le, encodeU32le, byteAt]
  omega

/-- Byte reversal of a value given by its four base-256 digits. -/
lemma bswap32_digits (a b c d : Nat) (ha : a < 256) (hb : b < 256) (hc : c < 256)
    (hd : d < 256) :
    bswap32 (a + 256 * b + 65536 * c + 16777216 * d) =
      d + 256 * c + 65536 * b + 16777216 * a := by
  unfold bswap32
  omega

/-- A byte-swapped native load of a big-endian-serialized 32-bit value
recovers the value. -/
lemma bswap32_loadU32le_encodeU32be (v : Nat) (rest : List Byte) (hv : v < 2 ^ 32) :
    bswap32 (loadU32le (encodeU32be v ++ rest) 0) = v := by
  have hx : loadU32le (encodeU32be v ++ rest) 0 =
      v / 16777216 % 256 + 256 * (v / 65536 % 256) + 65536 * (v / 256 % 256) +
        16777216 * (v % 256) := by
    simp [loadU32le, encodeU32be, byteAt]
  rw [hx, bswap32_digits _ _ _ _ (Nat.mod_lt _ (by norm_num)) (Nat.mod_lt _ (by norm_num))
    (Nat.mod_lt _ (by norm_num)) (Nat.mod_lt _ (by norm_num))]
  have e1 : v / 256 / 256 = v / 65536 := by rw [Nat.div_div_eq_div_mul]
  have e2 : v / 65536 / 256 = v / 16777216 := by rw [Nat.div_div_eq_div_mul]
  have e3 : v / 16777216 / 256 = v / 4294967296 := by rw [Nat.div_div_eq_div_mul]
  have e4 : v / 4294967296 = 0 := Nat.div_eq_of_lt hv
  omega

/-- A dispatched outcome of the layer-3/4 parser carries the timestamp
it was given. -/
lemma parseIpUdp_ts {ts : Timespec} {file : List Byte}
    {table : Nat → PcapReceiver.Subscription} {proto p remaining : Nat}
    {c : PcapReceiver.DispatchCall}
    (h : PcapReceiver.parseIpUdp ts file table proto p remaining = .dispatched c) :
    c.ts = ts := by
  unfold PcapReceiver.parseIpUdp at h
  repeat' split at h
  all_goals cases h <;> rfl

/-- A dispatched outcome of the layer parser carries the timestamp it
was given. -/
lemma parseAndDispatch_ts {ts : Timespec} {caplen len : Nat} {file : List Byte}
    {off linkType : Nat} {table : Nat → PcapReceiver.Subscription}
    {c : PcapReceiver.DispatchCall}
    (h : PcapReceiver.parseAndDispatch ts caplen len file off linkType table =
      .dispatched c) :
    c.ts = ts := by
  unfold PcapReceiver.parseAndDispatch at h
  repeat' split at h
  all_goals first
    | exact parseIpUdp_ts h
    | cases h

/-- A byte of the captured frame, addressed frame-relatively, is the same
byte addressed mapping-absolutely. -/
lemma frame_read {file : List Byte} {off caplen i : Nat}
    (h : off + caplen ≤ file.length) (hi : i < caplen) :
    file[off + i]? = some (((file.drop off).take caplen).getD i 0) := by
  have h1 : ((file.drop off).take caplen)[i]? = (file.drop off)[i]? :=
    List.getElem?_take_of_lt hi
  have h2 : (file.drop off)[i]? = file[off + i]? := List.getElem?_drop file off i
  have h3 : off + i < file.length := by omega
  rw [List.getD_eq_getElem?_getD, h1, h2, List.getElem?_eq_getElem h3]
  rfl

/-- A two-byte big-endian read inside the captured frame equals the
spec-side read on the extracted frame. -/
lemma readU16be_frame {file : List Byte} {off caplen i : Nat}
    (h : off + caplen ≤ file.length) (hi : i + 2 ≤ caplen) :
    readU16be file (off + i) =
      some (PcapReceiver.specU16be ((file.drop off).take caplen) i) := by
  have ha := frame_read h (show i < caplen by omega)
  have hb := frame_read h (show i + 1 < caplen by omega)
  rw [show off + (i + 1) = off + i + 1 from by omega] at hb
  simp [readU16be, PcapReceiver.specU16be, ha, hb]

/-- The layer-3/4 parser agrees with the spec-side IPv4/UDP
requirements: on an in-mapping frame it never reads out of bounds, and
it dispatches exactly the calls the spec describes. -/
lemma parseIpUdp_spec (ts : Timespec) (file : List Byte)
    (table : Nat → PcapReceiver.Subscription) (off lhl caplen proto : Nat)
    (h : off + caplen ≤ file.length) (hl : lhl ≤ caplen) :
    PcapReceiver.parseIpUdp ts file table proto (off + lhl) (caplen - lhl) ≠ .oobRead
    ∧ (∀ c, PcapReceiver.parseIpUdp ts file table proto (off + lhl) (caplen - lhl) =
          .dispatched c ↔
        ∃ dport poff plen hh,
          PcapReceiver.specIpUdp ((file.drop off).take caplen) lhl (caplen - lhl) proto =
            some (dport, poff, plen)
          ∧ (table dport).handler = some hh
          ∧ c = ⟨(table dport).context, hh, off + poff, plen, 0, ts⟩) := by
  unfold PcapReceiver.parseIpUdp PcapReceiver.specIpUdp
  by_cases h1 : proto = 0x0800
  case neg =>
    rw [if_pos h1, if_neg (fun hc => h1 hc.1)]
    exact ⟨by simp, by simp⟩
  case pos =>
  rw [if_neg (not_not_intro h1)]
  by_cases h2 : caplen - lhl < 20
  case pos =>
    rw [if_pos h2, if_neg (fun hc => by have := hc.2.1; omega)]
    exact ⟨by simp, by simp⟩
  case neg =>
  rw [if_neg h2]
  have hlc : lhl < caplen := by omega
  rw [frame_read h hlc]
  dsimp only
  by_cases h3 : ((file.drop off).take caplen).getD lhl 0 / 16 = 4
  case neg =>
    rw [if_pos h3, if_neg (fun hc => h3 hc.2.2.1)]
    exact ⟨by simp, by simp⟩
  case pos =>
  rw [if_neg (not_not_intro h3)]
  by_cases h4 : ((file.drop off).take caplen).getD lhl 0 % 16 * 4 ≤ caplen - lhl
  case neg =>
    rw [if_pos (Nat.lt_of_not_le h4), if_neg (fun hc => h4 hc.2.2.2.1)]
    exact ⟨by simp, by simp⟩
  case pos =>
  rw [if_neg (not_lt.mpr h4)]
  rw [show off + lhl + 9 = off + (lhl + 9) from by omega]
  rw [frame_read h (show lhl + 9 < caplen from by omega)]
  dsimp only
  by_cases h5 : ((file.drop off).take caplen).getD (lhl + 9) 0 = 17
  case neg =>
    rw [if_pos h5, if_neg (fun hc => h5 hc.2.2.2.2.1)]
    exact ⟨by simp, by simp⟩
  case pos =>
  rw [if_neg (not_not_intro h5)]
  by_cases h6 : 8 ≤ caplen - lhl - ((file.drop off).take caplen).getD lhl 0 % 16 * 4
  case neg =>
    rw [if_pos (Nat.lt_of_not_le h6), if_neg (fun hc => h6 hc.2.2.2.2.2.1)]
    exact ⟨by simp, by simp⟩
  case pos =>
  rw [if_neg (not_lt.mpr h6)]
  rw [show off + lhl + ((file.drop off).take caplen).getD lhl 0 % 16 * 4 + 2 =
      off + (lhl + ((file.drop off).take caplen).getD lhl 0 % 16 * 4 + 2) from by omega]
  rw [readU16be_frame h
    (show lhl + ((file.drop off).take caplen).getD lhl 0 % 16 * 4 + 2 + 2 ≤ caplen
      from by omega)]
  rw [show off + lhl + ((file.drop off).take caplen).getD lhl 0 % 16 * 4 + 4 =
      off + (lhl + ((file.drop off).take caplen).getD lhl 0 % 16 * 4 + 4) from by omega]
  rw [readU16be_frame h
    (show lhl + ((file.drop off).take caplen).getD lhl 0 % 16 * 4 + 4 + 2 ≤ caplen
      from by omega)]
  dsimp only
  by_cases h7 : PcapReceiver.specU16be ((file.drop off).take caplen)
      (lhl + ((file.drop off).take caplen).getD lhl 0 % 16 * 4 + 4) < 8
  case pos =>
    rw [if_pos h7, if_neg (fun hc => by have := hc.2.2.2.2.2.2.1; omega)]
    exact ⟨by simp, by simp⟩
  case neg =>
  rw [if_neg h7]
  by_cases h8 : caplen - lhl - ((file.drop off).take caplen).getD lhl 0 % 16 * 4 - 8 <
      PcapReceiver.specU16be ((file.drop off).take caplen)
        (lhl + ((file.drop off).take caplen).getD lhl 0 % 16 * 4 + 4) - 8
  case pos =>
    rw [if_pos h8, if_neg (fun hc => by have := hc.2.2.2.2.2.2.2; omega)]
    exact ⟨by simp, by simp⟩
  case neg =>
  rw [if_neg h8, if_pos ⟨h1, by omega, h3, h4, h5, h6, by omega, by omega⟩]
  cases hh : (table (PcapReceiver.specU16be ((file.drop off).take caplen)
      (lhl + ((file.drop off).take caplen).getD lhl 0 % 16 * 4 + 2))).handler with
  | none =>
    refine ⟨by simp, fun c => ⟨fun hc => (by cases hc), ?_⟩⟩
    rintro ⟨dport, poff, plen, hh', hs, hhand, -⟩
    rw [Option.some.injEq, Prod.mk.injEq, Prod.mk.injEq] at hs
    obtain ⟨rfl, -, -⟩ := hs
    rw [hh] at hhand
    cases hhand
  | some hdl =>
    refine ⟨by simp, fun c => ⟨fun hc => ?_, ?_⟩⟩
    · rw [PcapReceiver.ParseOutcome.dispatched.injEq] at hc
      refine ⟨_, _, _, hdl, rfl, hh, ?_⟩
      rw [← hc]
      rw [PcapReceiver.DispatchCall.mk.injEq]
      refine ⟨rfl, rfl, by omega, rfl, rfl, rfl⟩
    · rintro ⟨dport, poff, plen, hh', hs, hhand, hceq⟩
      rw [Option.some.injEq, Prod.mk.injEq, Prod.mk.injEq] at hs
      obtain ⟨rfl, rfl, rfl⟩ := hs
      rw [hh, Option.some.injEq] at hhand
      subst hhand
      rw [hceq, PcapReceiver.ParseOutcome.dispatched.injEq, PcapReceiver.DispatchCall.mk.injEq]
      refine ⟨rfl, rfl, by omega, rfl, rfl, rfl⟩

/-- C7: on a frame fully inside the mapping, the layer parser performs
no out-of-mapping read and surfaces no error, and it invokes a handler
exactly when every check in the spec's enumeration passes (caplen = len,
link-header length, IPv4 ether type, version, IHL and UDP length fitting
the captured bytes) and `port_table[dest_port]` holds a non-null
handler - in which case the call is
`handler(context, payload_ptr, payload_length, OK, timestamp)`. -/
theorem parseAndDispatch_matches_spec :
    ∀ (ts : Timespec) (caplen len : Nat) (file : List Byte) (off linkType : Nat)
      (table : Nat → PcapReceiver.Subscription),
      off + caplen ≤ file.length →
      PcapReceiver.parseAndDispatch ts caplen len file off linkType table ≠ .oobRead
      ∧ (∀ c, PcapReceiver.parseAndDispatch ts caplen len file off linkType table =
            .dispatched c ↔
          ∃ dport poff plen hh,
            PcapReceiver.specParse ((file.drop off).take caplen) caplen len linkType =
              some (dport, poff, plen)
            ∧ (table dport).handler = some hh
            ∧ c = ⟨(table dport).context, hh, off + poff, plen, 0, ts⟩) := by
  intro ts caplen len file off linkType table h
  unfold PcapReceiver.parseAndDispatch PcapReceiver.specParse
  by_cases hcl : caplen = len
  case neg =>
    rw [if_pos hcl, if_neg hcl]
    exact ⟨by simp, by simp⟩
  case pos =>
  rw [if_neg (not_not_intro hcl), if_pos hcl]
  unfold PcapReceiver.specLinkHeader
  by_cases hsll : linkType = 113
  case pos =>
    rw [if_pos hsll, if_neg (show linkType ≠ 1 from by simp [hsll]), if_pos hsll]
    by_cases h16 : caplen < 16
    case pos =>
      rw [if_pos h16, if_neg (not_le.mpr h16)]
      exact ⟨by simp, by simp⟩
    case neg =>
    rw [if_neg h16, if_pos (Nat.le_of_not_lt h16)]
    rw [readU16be_frame h (show 14 + 2 ≤ caplen from Nat.le_of_not_lt h16)]
    dsimp only
    exact parseIpUdp_spec ts file table off 16 caplen _ h (by omega)
  case neg =>
  by_cases heth : linkType = 1
  case pos =>
    rw [if_neg hsll, if_pos heth, if_pos heth]
    by_cases h14 : caplen < 14
    case pos =>
      rw [if_pos h14, if_neg (not_le.mpr h14)]
      exact ⟨by simp, by simp⟩
    case neg =>
    rw [if_neg h14, if_pos (Nat.le_of_not_lt h14)]
    rw [readU16be_frame h (show 12 + 2 ≤ caplen from Nat.le_of_not_lt h14)]
    dsimp only
    by_cases hvlan : PcapReceiver.specU16be ((file.drop off).take caplen) 12 = 0x8100
    case pos =>
      rw [if_pos hvlan, if_pos hvlan]
      by_cases hv4 : caplen - 14 < 4
      case pos =>
        rw [if_pos hv4, if_neg (show ¬18 ≤ caplen from by omega)]
        exact ⟨by simp, by simp⟩
      case neg =>
      rw [if_neg hv4, if_pos (show 18 ≤ caplen from by omega)]
      rw [show off + 14 + 2 = off + 16 from by omega]
      rw [readU16be_frame h (show 16 + 2 ≤ caplen from by omega)]
      dsimp only
      exact parseIpUdp_spec ts file table off 18 caplen _ h (by omega)
    case neg =>
      rw [if_neg hvlan, if_neg hvlan]
      dsimp only
      exact parseIpUdp_spec ts file table off 14 caplen _ h (by omega)
  case neg =>
    rw [if_neg hsll, if_neg heth, if_neg heth, if_neg hsll]
    exact ⟨by simp, by simp⟩

/-- C7 witness: the characterization applied to the concrete frame
`frame5000` (44-byte Ethernet + IPv4 + UDP to port 5000) under a table
holding handler 9 with context 4 at port 5000: the parser dispatches
exactly the spec-described call. -/
theorem parseAndDispatch_matches_spec_witness :
    PcapReceiver.parseAndDispatch ⟨1, 2⟩ 44 44 PcapReceiver.frame5000 0 1
      (fun p => if p = 5000 then ⟨4, some 9⟩ else ⟨0, none⟩) =
      .dispatched ⟨4, 9, 42, 2, 0, ⟨1, 2⟩⟩ :=
  ((parseAndDispatch_matches_spec ⟨1, 2⟩ 44 44 PcapReceiver.frame5000 0 1
      (fun p => if p = 5000 then ⟨4, some 9⟩ else ⟨0, none⟩) (by decide)).2
    ⟨4, 9, 42, 2, 0, ⟨1, 2⟩⟩).mpr
    ⟨5000, 42, 2, 9, by decide, by decide, by decide⟩

/-- C8: decoding a legacy packet header serialized little-endian with
the native dialect, or big-endian with the swapped dialect, recovers
the same four fields `(sec, u, caplen, len)`; the timestamp built from
sub-second field `u` has `nsec = u·1000` in the microsecond dialect and
`nsec = u` in the nanosecond dialect; and any legacy `step()` dispatch
delivers exactly this timestamp, built from the decoded fields at the
cursor, to the handler. -/
theorem legacy_timestamp_and_byteswap_decode :
    ∀ s u c l : Nat, s < 2 ^ 32 → u < 2 ^ 32 → c < 2 ^ 32 → l < 2 ^ 32 →
      PcapReceiver.decodePkthdr false
        (encodeU32le s ++ encodeU32le u ++ encodeU32le c ++ encodeU32le l) 0 = (s, u, c, l)
      ∧ PcapReceiver.decodePkthdr true
        (encodeU32be s ++ encodeU32be u ++ encodeU32be c ++ encodeU32be l) 0 = (s, u, c, l)
      ∧ PcapReceiver.legacyTimestamp false s u = ⟨s, u * 1000⟩
      ∧ PcapReceiver.legacyTimestamp true s u = ⟨s, u⟩
      ∧ (∀ (mode : PcapReceiver.ReplayMode) (speed : ℚ) (now : Nat) (file : List Byte)
           (table : Nat → PcapReceiver.Subscription) (st : PcapReceiver.ReplayState)
           (c' : PcapReceiver.DispatchCall),
          st.isPcapNg = false →
          (PcapReceiver.step mode speed now file table st).1 = .stepped (.dispatched c') →
          c'.ts = PcapReceiver.legacyTimestamp st.isNanosecond
            (PcapReceiver.decodePkthdr st.swapped file st.cursor).1
            (PcapReceiver.decodePkthdr st.swapped file st.cursor).2.1) := by
  intro s u c l hs hu hc hl
  refine ⟨?_, ?_, rfl, rfl, ?_⟩
  · unfold PcapReceiver.decodePkthdr
    simp only [Bool.false_eq_true, if_false, Prod.mk.injEq]
    refine ⟨?_, ?_, ?_, ?_⟩
    · simp only [List.append_assoc]
      exact loadU32le_encodeU32le s _ hs
    · simp only [List.append_assoc]
      rw [show (0 + 4 : Nat) = (encodeU32le s).length from rfl, loadU32le_append]
      exact loadU32le_encodeU32le u _ hu
    · rw [List.append_assoc (encodeU32le s ++ encodeU32le u)]
      rw [show (0 + 8 : Nat) = (encodeU32le s ++ encodeU32le u).length from by
        simp [encodeU32le], loadU32le_append]
      exact loadU32le_encodeU32le c _ hc
    · rw [show (0 + 12 : Nat) = (encodeU32le s ++ encodeU32le u ++ encodeU32le c).length from by
        simp [encodeU32le], loadU32le_append]
      rw [show encodeU32le l = encodeU32le l ++ [] from by simp]
      exact loadU32le_encodeU32le l _ hl
  · unfold PcapReceiver.decodePkthdr
    simp only [if_pos, Prod.mk.injEq]
    refine ⟨?_, ?_, ?_, ?_⟩
    · simp only [List.append_assoc]
      exact bswap32_loadU32le_encodeU32be s _ hs
    · simp only [List.append_assoc]
      rw [show (0 + 4 : Nat) = (encodeU32be s).length from rfl, loadU32le_append]
      exact bswap32_loadU32le_encodeU32be u _ hu
    · rw [List.append_assoc (encodeU32be s ++ encodeU32be u)]
      rw [show (0 + 8 : Nat) = (encodeU32be s ++ encodeU32be u).length from by
        simp [encodeU32be], loadU32le_append]
      exact bswap32_loadU32le_encodeU32be c _ hc
    · rw [show (0 + 12 : Nat) = (encodeU32be s ++ encodeU32be u ++ encodeU32be c).length from by
        simp [encodeU32be], loadU32le_append]
      rw [show encodeU32be l = encodeU32be l ++ [] from by simp]
      exact bswap32_loadU32le_encodeU32be l _ hl
  · intro mode speed now file table st c' hng hstep
    unfold PcapReceiver.step at hstep
    rw [if_neg (by simp [hng])] at hstep
    by_cases heof : file.length < st.cursor + 16
    · rw [if_pos heof] at hstep
      simp at hstep
    · rw [if_neg heof] at hstep
      by_cases hm : mode = PcapReceiver.ReplayMode.TIMED
      · rw [if_pos hm] at hstep
        split at hstep
        · simp at hstep
        · exact (parseAndDispatch_ts (by simpa using hstep)).trans rfl
      · rw [if_neg hm] at hstep
        exact (parseAndDispatch_ts (by simpa using hstep)).trans rfl

/-- C8 witness: the decode and timestamp statements applied to the
concrete header fields (7, 5, 44, 44). -/
theorem legacy_timestamp_and_byteswap_decode_witness :
    PcapReceiver.decodePkthdr false
      (encodeU32le 7 ++ encodeU32le 5 ++ encodeU32le 44 ++ encodeU32le 44) 0 = (7, 5, 44, 44)
    ∧ PcapReceiver.legacyTimestamp false 7 5 = ⟨7, 5000⟩ := by
  have hth := legacy_timestamp_and_byteswap_decode 7 5 44 44 (by norm_num) (by norm_num)
    (by norm_num) (by norm_num)
  exact ⟨hth.1, hth.2.2.1⟩

end AtuReactor
